import Mathlib

/-!
Shallow embedding of a minimal raw-mode terminal display loop (a Rust
program built on crossterm).  The program stages one frame of output into
a growable buffer (`EditorContents`), flushes it to the terminal device in
one write, reads key events with a bounded poll, and moves a logical
cursor on the w/a/s/d keys.

Modelling conventions:
- `usize` arithmetic is `Nat` with explicit wrap-around modulo `2 ^ 64`
  (release-mode overflow semantics); the unchecked decrements in
  `CursorController.move_cursor` therefore wrap at zero.
- The staged buffer is a list of `Atom`s: plain characters plus the
  terminal-control commands that `queue!` serialises into the buffer
  (cursor hide/show, move-to, clear-all, clear-until-newline).
- Fallible device operations (the `write!` to stdout and the stdout
  `flush` inside `EditorContents.flush`) are parameterised by their
  outcome (`Option IOError`), and the device operations actually
  attempted are logged as a list of `DevOp`s.
- The `unimplemented!()` arm of `move_cursor` is modelled by `Option`:
  `none` is the unimplemented-path fault.
-/

/-- Abstract `std::io::Error`; the program never inspects the error value. -/
structure IOError where
  code : Nat
deriving DecidableEq, Repr

/-- One staged element of the output buffer: a plain character, or one of
the terminal-control commands that `queue!` serialises into the buffer. -/
inductive Atom where
  | chr (c : Char)
  | cursorHide
  | cursorShow
  | moveTo (x y : Nat)
  | clearAll
  | clearUntilNewLine
deriving DecidableEq, Repr

/-- Wrapping `usize` decrement by one (release-mode semantics of `x -= 1`). -/
def usizeSub1 (n : Nat) : Nat := (n + 2 ^ 64 - 1) % 2 ^ 64

/-- Wrapping `usize` increment by one (release-mode semantics of `x += 1`). -/
def usizeAdd1 (n : Nat) : Nat := (n + 1) % 2 ^ 64

/-- The cursor state: `CursorController { cursor_x, cursor_y }`. -/
structure CursorController where
  cursor_x : Nat
  cursor_y : Nat
deriving DecidableEq, Repr

/-- `CursorController::new`. -/
def CursorController.new : CursorController := ⟨0, 0⟩

/-- `CursorController::move_cursor`: unchecked `usize` deltas on the four
wired direction characters; any other character hits `unimplemented!()`,
modelled as `none`. -/
def CursorController.move_cursor (c : CursorController) (direction : Char) :
    Option CursorController :=
  match direction with
  | 'w' => some { c with cursor_y := usizeSub1 c.cursor_y }
  | 'a' => some { c with cursor_x := usizeSub1 c.cursor_x }
  | 's' => some { c with cursor_y := usizeAdd1 c.cursor_y }
  | 'd' => some { c with cursor_x := usizeAdd1 c.cursor_x }
  | _ => none

/-- The growable staging buffer `EditorContents { content }`. -/
structure EditorContents where
  content : List Atom
deriving DecidableEq, Repr

/-- `EditorContents::new`. -/
def EditorContents.new : EditorContents := ⟨[]⟩

/-- `EditorContents::push`. -/
def EditorContents.push (ec : EditorContents) (ch : Char) : EditorContents :=
  ⟨ec.content ++ [Atom.chr ch]⟩

/-- `EditorContents::push_str`. -/
def EditorContents.push_str (ec : EditorContents) (s : String) : EditorContents :=
  ⟨ec.content ++ s.data.map Atom.chr⟩

/-- A `queue!` of one terminal command into the buffer. -/
def EditorContents.queueCmd (ec : EditorContents) (a : Atom) : EditorContents :=
  ⟨ec.content ++ [a]⟩

/-- One operation attempted on the terminal device. -/
inductive DevOp where
  | write (data : List Atom)
  | flushDev
deriving DecidableEq, Repr

/-- The `io::Write::flush` impl for `EditorContents`:
`let out = write!(stdout(), "{}", self.content); stdout().flush()?;
self.content.clear(); out`.  The two fallible device calls are
parameterised by their outcomes `writeErr` (the `write!`) and `flushErr`
(the `stdout().flush()`).  Returns the buffer state after the call, the
`io::Result<()>` value, and the device operations attempted. -/
def EditorContents.flush (ec : EditorContents)
    (writeErr flushErr : Option IOError) :
    EditorContents × Except IOError Unit × List DevOp :=
  let out : Except IOError Unit :=
    match writeErr with
    | some e => Except.error e
    | none => Except.ok ()
  let ops : List DevOp := [DevOp.write ec.content, DevOp.flushDev]
  match flushErr with
  | some e => (ec, Except.error e, ops)
  | none => (⟨[]⟩, out, ops)

/-- The banner text: `format!("Pound Editor --- Version {}", "0.0.1")`. -/
def welcomeStr : String := "Pound Editor --- Version " ++ "0.0.1"

/-- The banner after `welcome.truncate(screen_columns)` (applied only when
it is wider than the screen), as a character list. -/
def truncatedWelcome (screen_columns : Nat) : List Char :=
  if welcomeStr.data.length > screen_columns then
    welcomeStr.data.take screen_columns
  else
    welcomeStr.data

/-- The computed left padding `(screen_columns - welcome.len()) / 2`
(after truncation, so the subtraction cannot underflow). -/
def bannerPadding (screen_columns : Nat) : Nat :=
  (screen_columns - (truncatedWelcome screen_columns).length) / 2

/-- The atoms staged for the banner row: an optional `~` marker consuming
one unit of padding, the remaining padding as spaces, then the (possibly
truncated) banner text. -/
def bannerRow (screen_columns : Nat) : List Atom :=
  let padding := bannerPadding screen_columns
  (if padding ≠ 0 then [Atom.chr '~'] else []) ++
    List.replicate (if padding ≠ 0 then padding - 1 else padding) (Atom.chr ' ') ++
    (truncatedWelcome screen_columns).map Atom.chr

/-- The atoms staged by one iteration of the `draw_rows` loop for row
index `i`: the row content (banner row at `i = rows / 3`, a `~` marker
otherwise), the queued clear-until-newline, and `"\r\n"` for every row
except the last. -/
def rowAtoms (screen_rows screen_columns i : Nat) : List Atom :=
  (if i = screen_rows / 3 then bannerRow screen_columns else [Atom.chr '~']) ++
    [Atom.clearUntilNewLine] ++
    (if i < screen_rows - 1 then [Atom.chr '\x0d', Atom.chr '\x0a'] else [])

/-- The `draw_rows` loop body over a list of row indices. -/
def drawRowsGo (screen_rows screen_columns : Nat) : List Nat → List Atom
  | [] => []
  | i :: is => rowAtoms screen_rows screen_columns i ++ drawRowsGo screen_rows screen_columns is

/-- All atoms appended to the buffer by `Output::draw_rows` for a
`win_size` of `(screen_columns, screen_rows)`. -/
def drawRowsOut (screen_rows screen_columns : Nat) : List Atom :=
  drawRowsGo screen_rows screen_columns (List.range screen_rows)

/-- The `Output` state: captured window size, staging buffer, cursor. -/
structure Output where
  win_size : Nat × Nat
  editor_contents : EditorContents
  cursor_controller : CursorController
deriving DecidableEq, Repr

/-- `Output::draw_rows`: appends the row atoms to the staging buffer. -/
def Output.draw_rows (o : Output) : Output :=
  { o with editor_contents :=
      ⟨o.editor_contents.content ++ drawRowsOut o.win_size.2 o.win_size.1⟩ }

/-- `Output::refresh_screen`: queues hide / clear-all / move-to(0,0),
runs `draw_rows`, queues move-to(0,0) / show, then calls
`EditorContents::flush`.  `writeErr` and `flushErr` are the outcomes of
the two device calls inside the flush.  Returns the resulting `Output`,
the `io::Result<()>`, the buffer content as staged at the moment of the
flush, and the device operations attempted. -/
def Output.refresh_screen (o : Output) (writeErr flushErr : Option IOError) :
    Output × Except IOError Unit × List Atom × List DevOp :=
  let ec1 := ((o.editor_contents.queueCmd Atom.cursorHide).queueCmd
      Atom.clearAll).queueCmd (Atom.moveTo 0 0)
  let o1 := Output.draw_rows { o with editor_contents := ec1 }
  let ec2 := (o1.editor_contents.queueCmd (Atom.moveTo 0 0)).queueCmd Atom.cursorShow
  let (ec3, res, ops) := ec2.flush writeErr flushErr
  ({ o1 with editor_contents := ec3 }, res, ec2.content, ops)

/-- `Output::move_cursor` delegates to the cursor controller; a fault in
the controller (`none`) propagates. -/
def Output.move_cursor (o : Output) (direction : Char) : Option Output :=
  (o.cursor_controller.move_cursor direction).map
    (fun cc => { o with cursor_controller := cc })

/-- One step of the terminal-session teardown. -/
inductive SessionOp where
  | disableRaw
  | emit (a : Atom)
deriving DecidableEq, Repr

/-- `Output::clear_screen`: two `execute!` calls, emitting
clear-until-newline and then move-to(0,0) directly on stdout. -/
def Output.clear_screen : List Atom :=
  [Atom.clearUntilNewLine, Atom.moveTo 0 0]

/-- The body of `CleanUp`'s `Drop` impl: disable raw mode, then
`Output::clear_screen`. -/
def CleanUp.drop : List SessionOp :=
  SessionOp.disableRaw :: Output.clear_screen.map SessionOp.emit

/-- The `crossterm` key modifiers bitflag value (SHIFT = 1, CONTROL = 2,
ALT = 4, ...); the dispatcher matches exact values. -/
def KeyModifiersCONTROL : Nat := 2

/-- The empty modifier set `KeyModifiers::NONE`. -/
def KeyModifiersNONE : Nat := 0

/-- The key code of a `crossterm` key event; all non-`Char` variants are
collapsed into `nonChar` since the dispatcher only matches `Char`. -/
inductive KeyCode where
  | char (c : Char)
  | nonChar (n : Nat)
deriving DecidableEq, Repr

/-- Kind of a key event (`KeyEventKind`); matched only by wildcards. -/
inductive KeyEventKind where
  | press
  | repeatKind
  | release
deriving DecidableEq, Repr

/-- A `crossterm` `KeyEvent`; `state` is the `KeyEventState` bitflags,
matched only by wildcards. -/
structure KeyEvent where
  code : KeyCode
  modifiers : Nat
  kind : KeyEventKind
  state : Nat
deriving DecidableEq, Repr

/-- A `crossterm` `Event`; the reader keeps only `Key` events. -/
inductive CTEvent where
  | key (k : KeyEvent)
  | resize (w h : Nat)
  | focusGained
  | focusLost
  | paste (s : String)
  | mouse (n : Nat)
deriving DecidableEq, Repr

/-- The bounded wait passed to `event::poll`, in milliseconds. -/
def pollTimeoutMillis : Nat := 500

/-- One observed step of the input source, as seen through one
`event::poll(Duration::from_millis(500))` call: the poll times out, the
poll call itself fails, or an event is ready and the subsequent
`event::read()` either fails or delivers an event. -/
inductive PollStep where
  | timeout
  | pollFail (e : IOError)
  | readFail (e : IOError)
  | readEv (ev : CTEvent)
deriving DecidableEq, Repr

/-- Result of `Reader::read_key` on a finite trace of poll steps:
a key event together with the unconsumed steps, an I/O error, or
`pending` when the trace ran out while the loop was still polling. -/
inductive ReadKeyResult where
  | ok (k : KeyEvent) (rest : List PollStep)
  | err (e : IOError)
  | pending
deriving DecidableEq, Repr

/-- `Reader::read_key`: loop \x7b if poll(500ms)? \x7b if let Event::Key(e) =
read()? \x7b return Ok(e) \x7d \x7d \x7d — timeouts and non-key events continue the
loop, poll/read failures propagate via `?`. -/
def Reader.read_key : List PollStep → ReadKeyResult
  | [] => ReadKeyResult.pending
  | PollStep.timeout :: rest => Reader.read_key rest
  | PollStep.pollFail e :: _ => ReadKeyResult.err e
  | PollStep.readFail e :: _ => ReadKeyResult.err e
  | PollStep.readEv (CTEvent.key k) :: rest => ReadKeyResult.ok k rest
  | PollStep.readEv _ :: rest => Reader.read_key rest

/-- The editor: reader plus output (the reader struct is stateless). -/
structure Editor where
  output : Output
deriving DecidableEq, Repr

/-- `Editor::process_keypress` applied to the key event returned by
`read_key`: Ctrl-q stops the loop (`false`); w/a/s/d with no modifiers
move the cursor; anything else is a no-op.  `none` would mean a fault
inside `move_cursor` (which cannot happen for these four characters). -/
def Editor.process_keypress (ed : Editor) (ev : KeyEvent) : Option (Bool × Editor) :=
  match ev.code, ev.modifiers with
  | KeyCode.char 'q', 2 => some (false, ed)
  | KeyCode.char 'w', 0 => (ed.output.move_cursor 'w').map (fun o => (true, ⟨o⟩))
  | KeyCode.char 'a', 0 => (ed.output.move_cursor 'a').map (fun o => (true, ⟨o⟩))
  | KeyCode.char 's', 0 => (ed.output.move_cursor 's').map (fun o => (true, ⟨o⟩))
  | KeyCode.char 'd', 0 => (ed.output.move_cursor 'd').map (fun o => (true, ⟨o⟩))
  | _, _ => some (true, ed)

/-- Does a key event match the quit pattern (Ctrl-q)? -/
def isQuitKey (ev : KeyEvent) : Bool :=
  ev.code = KeyCode.char 'q' ∧ ev.modifiers = 2

/-- One render cycle: `refresh_screen` on the success path (both device
calls succeed). -/
def Editor.renderOnce (ed : Editor) : Editor :=
  ⟨(ed.output.refresh_screen none none).1⟩

/-- Outcome of running the event loop against a finite trace of key
events: the quit key was processed (with the render count and the events
never read), the trace ran out while the loop would keep blocking on the
next read, or a fault occurred in dispatch. -/
inductive RunOutcome where
  | quit (ed : Editor) (renders : Nat) (remaining : List KeyEvent)
  | blocked (ed : Editor) (renders : Nat)
  | fault (renders : Nat)
deriving DecidableEq, Repr

/-- The event loop `while editor.run()? {}` driven by a finite trace of
key events delivered by the reader: each iteration renders one frame and
then consumes exactly one key event. -/
def Editor.runEvents (ed : Editor) : List KeyEvent → RunOutcome
  | [] => RunOutcome.blocked ed.renderOnce 1
  | ev :: rest =>
    let ed1 := ed.renderOnce
    match ed1.process_keypress ev with
    | none => RunOutcome.fault 1
    | some (false, ed2) => RunOutcome.quit ed2 1 rest
    | some (true, ed2) =>
      match ed2.runEvents rest with
      | RunOutcome.quit e n rem => RunOutcome.quit e (n + 1) rem
      | RunOutcome.blocked e n => RunOutcome.blocked e (n + 1)
      | RunOutcome.fault n => RunOutcome.fault (n + 1)

/-- Join a list of segments with a separator between consecutive
segments (and no separator after the last). -/
def sepJoin (sep : List Atom) : List (List Atom) → List Atom
  | [] => []
  | [s] => s
  | s :: rest => s ++ sep ++ sepJoin sep rest

/-- One row-segment of `draw_rows`: the row content (banner or `~`
marker) followed by the queued clear-until-newline command. -/
def rowSeg (screen_rows screen_columns i : Nat) : List Atom :=
  (if i = screen_rows / 3 then bannerRow screen_columns else [Atom.chr '~']) ++
    [Atom.clearUntilNewLine]

/-- The staged line break `"\r\n"`. -/
def crlf : List Atom := [Atom.chr '\x0d', Atom.chr '\x0a']

/-!
Theorems.  Claim-level results are named `*_cN`; everything else is a
shared helper lemma.
-/

/-- C1: the cursor-bound invariant fails on the code.  From the initial
cursor `(0, 0)` inside an 80-column window, one `'a'` (left) transition
performs an unchecked `usize` decrement: the x-coordinate wraps to
`2 ^ 64 - 1`, which is not inside `[0, 80)`, so the cursor leaves
`[0, width) × [0, height)`. -/
theorem cursor_leaves_bounds_c1 :
    CursorController.new.move_cursor 'a' =
      some { cursor_x := 2 ^ 64 - 1, cursor_y := 0 } ∧
    ¬ (2 ^ 64 - 1 < 80) := by
  decide

/-- C4: refuted on the screen-clearing step.  `CleanUp`'s drop handler
does disable raw mode and home the cursor to `(0, 0)`, but the command it
emits is clear-until-newline (from the cursor to the end of the current
line), not the clear-entire-screen command: the entire screen is not
cleared. -/
theorem cleanup_partial_clear_c4 :
    CleanUp.drop =
      [SessionOp.disableRaw, SessionOp.emit Atom.clearUntilNewLine,
        SessionOp.emit (Atom.moveTo 0 0)] ∧
    SessionOp.emit Atom.clearAll ∉ CleanUp.drop := by
  decide

/-- C5: with `columns = 10` the 30-character banner is truncated to its
first 10 characters, the computed padding is zero, and the staged banner
row is exactly those 10 characters with no marker or spaces before them. -/
theorem banner_truncation_c5 :
    truncatedWelcome 10 = welcomeStr.data.take 10 ∧
    (truncatedWelcome 10).length = 10 ∧
    bannerPadding 10 = 0 ∧
    bannerRow 10 = ("Pound Edit").data.map Atom.chr := by
  decide

/-- C8: for any direction character outside the four wired ones
(`'w'`, `'a'`, `'s'`, `'d'`), `move_cursor` hits the `unimplemented!()`
arm — an unimplemented-path fault — instead of leaving the cursor
unchanged. -/
theorem unknown_direction_faults_c8 (direction : Char) (c : CursorController)
    (h1 : direction ≠ 'w') (h2 : direction ≠ 'a')
    (h3 : direction ≠ 's') (h4 : direction ≠ 'd') :
    c.move_cursor direction = none := by
  unfold CursorController.move_cursor
  split <;> simp_all

/-- Witness for C8 at the concrete direction `'x'`. -/
theorem unknown_direction_faults_c8_witness :
    ('x' ≠ 'w' ∧ 'x' ≠ 'a' ∧ 'x' ≠ 's' ∧ 'x' ≠ 'd') ∧
    CursorController.new.move_cursor 'x' = none :=
  ⟨by decide,
    unknown_direction_faults_c8 'x' CursorController.new
      (by decide) (by decide) (by decide) (by decide)⟩

/-- C3, counterexample: with a successful `write!` but a failing
`stdout().flush()`, the `?` on the device flush returns early and the
internal content is NOT cleared — refuting "the internal content region
is cleared regardless of whether the write succeeded". -/
theorem flush_not_always_cleared_c3 :
    (EditorContents.flush ⟨[Atom.chr 'x']⟩ none (some ⟨0⟩)).1 =
      (⟨[Atom.chr 'x']⟩ : EditorContents) ∧
    (EditorContents.flush ⟨[Atom.chr 'x']⟩ none (some ⟨0⟩)).1 ≠ EditorContents.new ∧
    (EditorContents.flush ⟨[Atom.chr 'x']⟩ none (some ⟨0⟩)).2.1 =
      Except.error ⟨0⟩ :=
  ⟨by decide, by decide, rfl⟩

/-- C3, amended: on every call, `flush` attempts exactly one write of the
entire accumulated content followed by one device-level flush.  When the
device-level flush succeeds, the internal content is cleared regardless
of the write outcome and the write error, if any, is the result; when the
device-level flush fails, its error is the result and the internal
content is retained. -/
theorem flush_steps_c3 (c : List Atom) (writeErr flushErr : Option IOError) :
    (EditorContents.flush ⟨c⟩ writeErr flushErr).2.2 =
      [DevOp.write c, DevOp.flushDev] ∧
    (flushErr = none →
      (EditorContents.flush ⟨c⟩ writeErr flushErr).1 = EditorContents.new ∧
      (EditorContents.flush ⟨c⟩ writeErr flushErr).2.1 =
        (match writeErr with
          | some e => Except.error e
          | none => Except.ok ())) ∧
    (∀ e, flushErr = some e →
      (EditorContents.flush ⟨c⟩ writeErr flushErr).1 = (⟨c⟩ : EditorContents) ∧
      (EditorContents.flush ⟨c⟩ writeErr flushErr).2.1 = Except.error e) := by
  cases flushErr <;> cases writeErr <;>
    simp [EditorContents.flush, EditorContents.new]

/-- Witness for C3 at a concrete buffer, failing write, successful
device flush. -/
theorem flush_steps_c3_witness :
    (EditorContents.flush ⟨[Atom.chr 'x']⟩ (some ⟨7⟩) none).2.2 =
      [DevOp.write [Atom.chr 'x'], DevOp.flushDev] ∧
    (EditorContents.flush ⟨[Atom.chr 'x']⟩ (some ⟨7⟩) none).1 =
      EditorContents.new ∧
    (EditorContents.flush ⟨[Atom.chr 'x']⟩ (some ⟨7⟩) none).2.1 =
      Except.error ⟨7⟩ :=
  ⟨(flush_steps_c3 [Atom.chr 'x'] (some ⟨7⟩) none).1,
    ((flush_steps_c3 [Atom.chr 'x'] (some ⟨7⟩) none).2.1 rfl).1,
    ((flush_steps_c3 [Atom.chr 'x'] (some ⟨7⟩) none).2.1 rfl).2⟩

/-- C6: whenever the computed padding `(columns - banner.len()) / 2` is
nonzero, the banner row is one `~` filler, then `padding - 1` spaces,
then the banner text. -/
theorem banner_centering_c6 (screen_columns : Nat)
    (h : bannerPadding screen_columns ≠ 0) :
    bannerRow screen_columns =
      Atom.chr '~' ::
        (List.replicate (bannerPadding screen_columns - 1) (Atom.chr ' ') ++
          welcomeStr.data.map Atom.chr) := by
  have htw : truncatedWelcome screen_columns = welcomeStr.data := by
    unfold truncatedWelcome
    by_cases hc : welcomeStr.data.length > screen_columns
    · exfalso
      apply h
      unfold bannerPadding truncatedWelcome
      rw [if_pos hc]
      have hl : (welcomeStr.data.take screen_columns).length = screen_columns := by
        rw [List.length_take]
        omega
      rw [hl]
      simp
    · rw [if_neg hc]
  simp only [bannerRow, htw, if_pos h]
  simp

/-- Witness for C6 at the concrete width 40: padding is 5, so the row is
one `~`, four spaces, then the banner. -/
theorem banner_centering_c6_witness :
    bannerPadding 40 ≠ 0 ∧ bannerPadding 40 = 5 ∧
    bannerRow 40 =
      Atom.chr '~' ::
        (List.replicate 4 (Atom.chr ' ') ++ welcomeStr.data.map Atom.chr) := by
  refine ⟨by decide, by decide, ?_⟩
  have h := banner_centering_c6 40 (by decide)
  have h4 : bannerPadding 40 - 1 = 4 := by decide
  rw [h4] at h
  exact h

theorem drawRowsGo_append (r c : Nat) (l1 l2 : List Nat) :
    drawRowsGo r c (l1 ++ l2) = drawRowsGo r c l1 ++ drawRowsGo r c l2 := by
  induction l1 with
  | nil => simp [drawRowsGo]
  | cons i is ih => simp [drawRowsGo, ih]

theorem eol_not_mem_bannerRow (c : Nat) : Atom.clearUntilNewLine ∉ bannerRow c := by
  unfold bannerRow
  simp [List.mem_replicate]

theorem mem_truncatedWelcome (c : Nat) (ch : Char) (h : ch ∈ truncatedWelcome c) :
    ch ∈ welcomeStr.data := by
  unfold truncatedWelcome at h
  split at h
  · exact List.take_subset _ _ h
  · exact h

theorem chr_notin_bannerRow (c : Nat) (ch : Char)
    (h1 : ch ≠ '~') (h2 : ch ≠ ' ') (h3 : ch ∉ welcomeStr.data) :
    Atom.chr ch ∉ bannerRow c := by
  unfold bannerRow
  intro hmem
  rcases List.mem_append.mp hmem with h | h
  · rcases List.mem_append.mp h with h | h
    · split at h
      · rw [List.mem_singleton] at h
        exact h1 (by injection h)
      · exact absurd h (List.not_mem_nil _)
    · have := (List.mem_replicate.mp h).2
      exact h2 (by injection this)
  · rcases List.mem_map.mp h with ⟨x, hx, hxe⟩
    have : x = ch := by injection hxe
    exact h3 (this ▸ mem_truncatedWelcome c x hx)

theorem count_eol_rowAtoms (r c i : Nat) :
    List.count Atom.clearUntilNewLine (rowAtoms r c i) = 1 := by
  unfold rowAtoms
  rw [List.count_append, List.count_append]
  have h1 : List.count Atom.clearUntilNewLine
      (if i = r / 3 then bannerRow c else [Atom.chr '~']) = 0 := by
    split
    · exact List.count_eq_zero.mpr (eol_not_mem_bannerRow c)
    · simp
  have h2 : List.count Atom.clearUntilNewLine
      (if i < r - 1 then [Atom.chr '\x0d', Atom.chr '\x0a'] else []) = 0 := by
    split <;> simp
  rw [h1, h2]
  simp

theorem count_nl_rowAtoms (r c i : Nat) :
    List.count (Atom.chr '\x0a') (rowAtoms r c i) = if i < r - 1 then 1 else 0 := by
  unfold rowAtoms
  rw [List.count_append, List.count_append]
  have h1 : List.count (Atom.chr '\x0a')
      (if i = r / 3 then bannerRow c else [Atom.chr '~']) = 0 := by
    split
    · exact List.count_eq_zero.mpr
        (chr_notin_bannerRow c '\x0a' (by decide) (by decide) (by decide))
    · simp
  have h2 : List.count (Atom.chr '\x0a')
      (if i < r - 1 then [Atom.chr '\x0d', Atom.chr '\x0a'] else []) =
      if i < r - 1 then 1 else 0 := by
    split <;> simp
  rw [h1, h2]
  simp

theorem count_cr_rowAtoms (r c i : Nat) :
    List.count (Atom.chr '\x0d') (rowAtoms r c i) = if i < r - 1 then 1 else 0 := by
  unfold rowAtoms
  rw [List.count_append, List.count_append]
  have h1 : List.count (Atom.chr '\x0d')
      (if i = r / 3 then bannerRow c else [Atom.chr '~']) = 0 := by
    split
    · exact List.count_eq_zero.mpr
        (chr_notin_bannerRow c '\x0d' (by decide) (by decide) (by decide))
    · simp
  have h2 : List.count (Atom.chr '\x0d')
      (if i < r - 1 then [Atom.chr '\x0d', Atom.chr '\x0a'] else []) =
      if i < r - 1 then 1 else 0 := by
    split <;> simp
  rw [h1, h2]
  simp

theorem count_eol_go (r c : Nat) (l : List Nat) :
    List.count Atom.clearUntilNewLine (drawRowsGo r c l) = l.length := by
  induction l with
  | nil => simp [drawRowsGo]
  | cons i is ih =>
    rw [drawRowsGo, List.count_append, count_eol_rowAtoms, ih, List.length_cons]
    omega

theorem count_nl_go (r c : Nat) (l : List Nat) :
    List.count (Atom.chr '\x0a') (drawRowsGo r c l) =
      (l.filter (fun i => decide (i < r - 1))).length := by
  induction l with
  | nil => simp [drawRowsGo]
  | cons i is ih =>
    rw [drawRowsGo, List.count_append, count_nl_rowAtoms, ih, List.filter_cons]
    by_cases h : i < r - 1
    · simp [h]
      omega
    · simp [h]

theorem count_cr_go (r c : Nat) (l : List Nat) :
    List.count (Atom.chr '\x0d') (drawRowsGo r c l) =
      (l.filter (fun i => decide (i < r - 1))).length := by
  induction l with
  | nil => simp [drawRowsGo]
  | cons i is ih =>
    rw [drawRowsGo, List.count_append, count_cr_rowAtoms, ih, List.filter_cons]
    by_cases h : i < r - 1
    · simp [h]
      omega
    · simp [h]

theorem length_filter_lt_range (m n : Nat) :
    ((List.range n).filter (fun i => decide (i < m))).length = min m n := by
  induction n with
  | zero => simp
  | succ n ih =>
    rw [List.range_succ, List.filter_append, List.length_append, ih]
    by_cases h : n < m
    · simp [h]
      omega
    · simp [h]
      omega

theorem rowSeg_getLast (r c i : Nat) :
    (rowSeg r c i).getLast? = some Atom.clearUntilNewLine := by
  unfold rowSeg
  exact List.getLast?_concat _

theorem drawRowsGo_eq_sepJoin (r c : Nat) :
    ∀ l : List Nat, (∀ i ∈ l.dropLast, i < r - 1) →
      (∀ i, l.getLast? = some i → ¬ i < r - 1) →
      drawRowsGo r c l = sepJoin crlf (l.map (rowSeg r c))
  | [] => by
    intro _ _
    rfl
  | [i] => by
    intro _ hlast
    have hi : ¬ i < r - 1 := hlast i rfl
    simp [drawRowsGo, rowAtoms, sepJoin, rowSeg, hi]
  | i :: j :: js => by
    intro hdrop hlast
    have hi : i < r - 1 := by
      apply hdrop
      simp [List.dropLast]
    have ih := drawRowsGo_eq_sepJoin r c (j :: js)
      (fun k hk => hdrop k (by simp [List.dropLast, hk]))
      (fun k hk => hlast k (by rw [List.getLast?_cons_cons]; exact hk))
    rw [drawRowsGo, ih, List.map_cons]
    show _ = rowSeg r c i ++ crlf ++ sepJoin crlf (List.map (rowSeg r c) (j :: js))
    simp [rowAtoms, rowSeg, crlf, hi, List.append_assoc]

theorem getLast_drawRowsOut (r c : Nat) (hr : 1 ≤ r) :
    (drawRowsOut r c).getLast? = some Atom.clearUntilNewLine := by
  obtain ⟨n, rfl⟩ : ∃ n, r = n + 1 := ⟨r - 1, by omega⟩
  unfold drawRowsOut
  rw [List.range_succ, drawRowsGo_append]
  have hn : ¬ n < (n + 1) - 1 := by omega
  have hout : drawRowsGo (n + 1) c [n] = rowSeg (n + 1) c n := by
    simp [drawRowsGo, rowAtoms, rowSeg, hn]
  rw [hout]
  rw [List.getLast?_append_of_ne_nil]
  · exact rowSeg_getLast _ _ _
  · simp [rowSeg]

/-- C2: for `rows ≥ 1` and `columns ≥ 1`, `draw_rows` stages exactly
`rows` row-segments joined by `"\r\n"` separators (so `rows - 1` line
breaks and none after the last row), each row-segment ending with the
clear-until-newline command. -/
theorem draw_rows_shape_c2 (screen_rows screen_columns : Nat)
    (hr : 1 ≤ screen_rows) ( _hc : 1 ≤ screen_columns) :
    drawRowsOut screen_rows screen_columns =
      sepJoin crlf ((List.range screen_rows).map (rowSeg screen_rows screen_columns)) ∧
    ((List.range screen_rows).map (rowSeg screen_rows screen_columns)).length =
      screen_rows ∧
    (∀ s ∈ (List.range screen_rows).map (rowSeg screen_rows screen_columns),
      s.getLast? = some Atom.clearUntilNewLine) ∧
    List.count Atom.clearUntilNewLine (drawRowsOut screen_rows screen_columns) =
      screen_rows ∧
    List.count (Atom.chr '\x0a') (drawRowsOut screen_rows screen_columns) =
      screen_rows - 1 ∧
    List.count (Atom.chr '\x0d') (drawRowsOut screen_rows screen_columns) =
      screen_rows - 1 ∧
    (drawRowsOut screen_rows screen_columns).getLast? =
      some Atom.clearUntilNewLine := by
  obtain ⟨n, rfl⟩ : ∃ n, screen_rows = n + 1 := ⟨screen_rows - 1, by omega⟩
  refine ⟨?_, ?_, ?_, ?_, ?_, ?_, getLast_drawRowsOut _ _ hr⟩
  · unfold drawRowsOut
    apply drawRowsGo_eq_sepJoin
    · intro i hi
      rw [List.range_succ, List.dropLast_concat] at hi
      have := List.mem_range.mp hi
      omega
    · intro i hi
      rw [List.range_succ, List.getLast?_concat] at hi
      have : n = i := by injection hi
      omega
  · simp
  · intro s hs
    rcases List.mem_map.mp hs with ⟨i, _, rfl⟩
    exact rowSeg_getLast _ _ _
  · unfold drawRowsOut
    rw [count_eol_go]
    simp
  · unfold drawRowsOut
    rw [count_nl_go, length_filter_lt_range]
    omega
  · unfold drawRowsOut
    rw [count_cr_go, length_filter_lt_range]
    omega

/-- Witness for C2 at the concrete size 3 rows by 10 columns. -/
theorem draw_rows_shape_c2_witness :
    (1 : Nat) ≤ 3 ∧ (1 : Nat) ≤ 10 ∧
    List.count Atom.clearUntilNewLine (drawRowsOut 3 10) = 3 ∧
    List.count (Atom.chr '\x0a') (drawRowsOut 3 10) = 2 ∧
    (drawRowsOut 3 10).getLast? = some Atom.clearUntilNewLine :=
  ⟨by decide, by decide,
    (draw_rows_shape_c2 3 10 (by decide) (by decide)).2.2.2.1,
    (draw_rows_shape_c2 3 10 (by decide) (by decide)).2.2.2.2.1,
    (draw_rows_shape_c2 3 10 (by decide) (by decide)).2.2.2.2.2.2⟩

/-- C9: `read_key` polls with a 500 ms bounded wait; a timeout continues
the loop, non-key events are silently discarded and polling continues, a
key event is returned, and an error is returned exactly when the
underlying poll or read call fails. -/
theorem read_key_only_keys_c9 :
    pollTimeoutMillis = 500 ∧
    (∀ rest, Reader.read_key (PollStep.timeout :: rest) = Reader.read_key rest) ∧
    (∀ ev rest, (∀ k, ev ≠ CTEvent.key k) →
      Reader.read_key (PollStep.readEv ev :: rest) = Reader.read_key rest) ∧
    (∀ k rest, Reader.read_key (PollStep.readEv (CTEvent.key k) :: rest) =
      ReadKeyResult.ok k rest) ∧
    (∀ e rest, Reader.read_key (PollStep.pollFail e :: rest) = ReadKeyResult.err e ∧
      Reader.read_key (PollStep.readFail e :: rest) = ReadKeyResult.err e) ∧
    (∀ steps k rest, Reader.read_key steps = ReadKeyResult.ok k rest →
      PollStep.readEv (CTEvent.key k) ∈ steps) ∧
    (∀ steps e, Reader.read_key steps = ReadKeyResult.err e →
      PollStep.pollFail e ∈ steps ∨ PollStep.readFail e ∈ steps) := by
  refine ⟨rfl, fun rest => rfl, ?_, fun k rest => rfl, fun e rest => ⟨rfl, rfl⟩, ?_, ?_⟩
  · intro ev rest h
    cases ev with
    | key k => exact absurd rfl (h k)
    | _ => rfl
  · intro steps
    induction steps with
    | nil => intro k rest h; exact absurd h (by simp [Reader.read_key])
    | cons s ss ih =>
      intro k rest h
      cases s with
      | timeout => exact List.mem_cons_of_mem _ (ih k rest h)
      | pollFail e => exact absurd h (by simp [Reader.read_key])
      | readFail e => exact absurd h (by simp [Reader.read_key])
      | readEv ev =>
        cases ev with
        | key k2 =>
          rw [Reader.read_key] at h
          have : k2 = k := by injection h
          subst this
          exact List.mem_cons_self _ _
        | resize w hh => exact List.mem_cons_of_mem _ (ih k rest h)
        | focusGained => exact List.mem_cons_of_mem _ (ih k rest h)
        | focusLost => exact List.mem_cons_of_mem _ (ih k rest h)
        | paste s => exact List.mem_cons_of_mem _ (ih k rest h)
        | mouse n => exact List.mem_cons_of_mem _ (ih k rest h)
  · intro steps
    induction steps with
    | nil => intro e h; exact absurd h (by simp [Reader.read_key])
    | cons s ss ih =>
      intro e h
      cases s with
      | timeout =>
        rcases ih e h with h1 | h1
        · exact Or.inl (List.mem_cons_of_mem _ h1)
        · exact Or.inr (List.mem_cons_of_mem _ h1)
      | pollFail e2 =>
        rw [Reader.read_key] at h
        have : e2 = e := by injection h
        subst this
        exact Or.inl (List.mem_cons_self _ _)
      | readFail e2 =>
        rw [Reader.read_key] at h
        have : e2 = e := by injection h
        subst this
        exact Or.inr (List.mem_cons_self _ _)
      | readEv ev =>
        cases ev with
        | key k2 => exact absurd h (by simp [Reader.read_key])
        | resize w hh =>
          rcases ih e h with h1 | h1
          · exact Or.inl (List.mem_cons_of_mem _ h1)
          · exact Or.inr (List.mem_cons_of_mem _ h1)
        | focusGained =>
          rcases ih e h with h1 | h1
          · exact Or.inl (List.mem_cons_of_mem _ h1)
          · exact Or.inr (List.mem_cons_of_mem _ h1)
        | focusLost =>
          rcases ih e h with h1 | h1
          · exact Or.inl (List.mem_cons_of_mem _ h1)
          · exact Or.inr (List.mem_cons_of_mem _ h1)
        | paste s2 =>
          rcases ih e h with h1 | h1
          · exact Or.inl (List.mem_cons_of_mem _ h1)
          · exact Or.inr (List.mem_cons_of_mem _ h1)
        | mouse n =>
          rcases ih e h with h1 | h1
          · exact Or.inl (List.mem_cons_of_mem _ h1)
          · exact Or.inr (List.mem_cons_of_mem _ h1)

theorem read_key_only_keys_c9_witness :
    (∀ k, CTEvent.focusGained ≠ CTEvent.key k) ∧
    Reader.read_key [PollStep.timeout, PollStep.readEv CTEvent.focusGained,
        PollStep.readEv (CTEvent.key ⟨KeyCode.char 'q', 2, KeyEventKind.press, 0⟩)] =
      ReadKeyResult.ok ⟨KeyCode.char 'q', 2, KeyEventKind.press, 0⟩ [] := by
  constructor
  · exact fun k h => nomatch h
  · have h2 := read_key_only_keys_c9.2.1
      [PollStep.readEv CTEvent.focusGained,
        PollStep.readEv (CTEvent.key ⟨KeyCode.char 'q', 2, KeyEventKind.press, 0⟩)]
    have h3 := read_key_only_keys_c9.2.2.1 CTEvent.focusGained
      [PollStep.readEv (CTEvent.key ⟨KeyCode.char 'q', 2, KeyEventKind.press, 0⟩)]
      (fun k h => nomatch h)
    have h4 := read_key_only_keys_c9.2.2.2.1
      (⟨KeyCode.char 'q', 2, KeyEventKind.press, 0⟩ : KeyEvent) []
    rw [h2, h3, h4]

/-- C10: `refresh_screen` never modifies the cursor state or the captured
window size (whatever the device outcomes), and the staged frame always
ends with move-to(0,0) followed by show-cursor. -/
theorem refresh_screen_pure_c10 (o : Output) (writeErr flushErr : Option IOError) :
    (o.refresh_screen writeErr flushErr).1.cursor_controller = o.cursor_controller ∧
    (o.refresh_screen writeErr flushErr).1.win_size = o.win_size ∧
    ∃ pre, (o.refresh_screen writeErr flushErr).2.2.1 =
      pre ++ [Atom.moveTo 0 0, Atom.cursorShow] := by
  cases flushErr <;>
    refine ⟨by simp [Output.refresh_screen, Output.draw_rows, EditorContents.flush,
        EditorContents.queueCmd], by simp [Output.refresh_screen, Output.draw_rows,
        EditorContents.flush, EditorContents.queueCmd],
      o.editor_contents.content ++ [Atom.cursorHide] ++ [Atom.clearAll] ++
        [Atom.moveTo 0 0] ++ drawRowsOut o.win_size.2 o.win_size.1,
      by simp [Output.refresh_screen, Output.draw_rows, EditorContents.flush,
        EditorContents.queueCmd, List.append_assoc]⟩

/-- Any non-quit key event is processed without fault and continues the
loop. -/
theorem process_keypress_not_quit (ed : Editor) (ev : KeyEvent)
    (h : isQuitKey ev = false) :
    ∃ ed2, ed.process_keypress ev = some (true, ed2) := by
  unfold Editor.process_keypress
  split
  · rename_i heq1 heq2
    simp [isQuitKey, heq1, heq2] at h
  · exact ⟨_, rfl⟩
  · exact ⟨_, rfl⟩
  · exact ⟨_, rfl⟩
  · exact ⟨_, rfl⟩
  · exact ⟨ed, rfl⟩

/-- C7: dispatch rules in order with first match winning: Ctrl-q returns
the stop value; each of w/a/s/d with no modifiers invokes the matching
cursor transition and the loop continues; any other key leaves the editor
unchanged and the loop continues; and on a trace whose first quit key
follows `pre`, the loop consumes exactly one key per iteration, renders
`pre.length + 1` frames, and never reads the events after the quit key. -/
theorem dispatch_quit_c7 :
    (∀ ed kind st, Editor.process_keypress ed ⟨KeyCode.char 'q', 2, kind, st⟩ =
      some (false, ed)) ∧
    (∀ ed kind st c, (c = 'w' ∨ c = 'a' ∨ c = 's' ∨ c = 'd') →
      ∃ cc2, ed.output.cursor_controller.move_cursor c = some cc2 ∧
        Editor.process_keypress ed ⟨KeyCode.char c, 0, kind, st⟩ =
          some (true, ⟨{ ed.output with cursor_controller := cc2 }⟩)) ∧
    (∀ ed ev, isQuitKey ev = false →
      (∀ c, ev.code = KeyCode.char c → ev.modifiers = 0 →
        c ≠ 'w' ∧ c ≠ 'a' ∧ c ≠ 's' ∧ c ≠ 'd') →
      Editor.process_keypress ed ev = some (true, ed)) ∧
    (∀ ed pre post kind st, (∀ e ∈ pre, isQuitKey e = false) →
      ∃ edf, Editor.runEvents ed (pre ++ ⟨KeyCode.char 'q', 2, kind, st⟩ :: post) =
        RunOutcome.quit edf (pre.length + 1) post) := by
  refine ⟨fun ed kind st => rfl, ?_, ?_, ?_⟩
  · intro ed kind st c hc
    rcases hc with rfl | rfl | rfl | rfl <;>
      exact ⟨_, rfl, rfl⟩
  · intro ed ev hq hmove
    unfold Editor.process_keypress
    split
    · rename_i heq1 heq2
      simp [isQuitKey, heq1, heq2] at hq
    · rename_i heq1 heq2
      exact absurd rfl (hmove 'w' heq1 heq2).1
    · rename_i heq1 heq2
      exact absurd rfl (hmove 'a' heq1 heq2).2.1
    · rename_i heq1 heq2
      exact absurd rfl (hmove 's' heq1 heq2).2.2.1
    · rename_i heq1 heq2
      exact absurd rfl (hmove 'd' heq1 heq2).2.2.2
    · rfl
  · intro ed pre post kind st
    induction pre generalizing ed with
    | nil =>
      intro _
      exact ⟨ed.renderOnce, rfl⟩
    | cons e pres ih =>
      intro hpre
      obtain ⟨ed2, hproc⟩ := process_keypress_not_quit ed.renderOnce e
        (hpre e (by simp))
      obtain ⟨edf, hrun⟩ := ih ed2 (fun x hx => hpre x (by simp [hx]))
      refine ⟨edf, ?_⟩
      rw [List.cons_append]
      simp only [Editor.runEvents]
      rw [hproc]
      simp [hrun]

/-- Witness for C7: from a concrete editor, a non-quit key then Ctrl-q
then one more key: the loop quits after two render cycles leaving the
third key unread. -/
theorem dispatch_quit_c7_witness :
    (∀ e ∈ [(⟨KeyCode.char 'x', 0, KeyEventKind.press, 0⟩ : KeyEvent)],
      isQuitKey e = false) ∧
    ∃ edf, Editor.runEvents ⟨⟨(10, 3), ⟨[]⟩, ⟨0, 0⟩⟩⟩
        [⟨KeyCode.char 'x', 0, KeyEventKind.press, 0⟩,
          ⟨KeyCode.char 'q', 2, KeyEventKind.press, 0⟩,
          ⟨KeyCode.char 'w', 0, KeyEventKind.press, 0⟩] =
      RunOutcome.quit edf 2 [⟨KeyCode.char 'w', 0, KeyEventKind.press, 0⟩] :=
  ⟨by decide,
    dispatch_quit_c7.2.2.2 ⟨⟨(10, 3), ⟨[]⟩, ⟨0, 0⟩⟩⟩
      [⟨KeyCode.char 'x', 0, KeyEventKind.press, 0⟩]
      [⟨KeyCode.char 'w', 0, KeyEventKind.press, 0⟩]
      KeyEventKind.press 0 (by decide)⟩
